import Mathlib

/-!
Shallow embedding of the libftpp network core (Message codec, Client,
Server) and proofs of the specification claims about it.

Bytes are modelled as `Nat` values; multi-byte machine scalars are laid
out little-endian, matching the `memcpy`-based encoding of the source on
the x86 targets it is written for.  `size_t` is 8 bytes, `Message::Type`
(`int`) is 4 bytes.  Exceptions are modelled by error components
(`Option`-valued, or a dedicated result type where more than one failure
mode exists) returned next to the post-state of the object, so that the
state an object is left in when an exception is thrown stays observable.
-/

/-- Little-endian byte encoding of a machine scalar of width `w` bytes,
as `memcpy` of the object representation produces it. -/
def encodeNat : Nat → Nat → List Nat
  | 0, _ => []
  | w + 1, v => v % 256 :: encodeNat w (v / 256)

/-- Little-endian byte decoding, as `memcpy` back into a scalar reads it. -/
def decodeNat : List Nat → Nat
  | [] => 0
  | b :: bs => b + 256 * decodeNat bs

/-- State of a `Message` object: `msgType` is the 4-byte `Type` field,
`buffer` the payload bytes, `readPos` the mutable read cursor. -/
structure Message where
  msgType : Nat
  buffer : List Nat
  readPos : Nat
  deriving DecidableEq, Repr

/-- `Message::operator>><T>` for a fixed-size scalar of `sizeof(T) = w`
bytes: fails (`none`) when fewer than `w` bytes remain past the cursor,
otherwise returns the decoded bytes and advances the cursor.  The second
component is the state the message object is left in. -/
def popScalar (m : Message) (w : Nat) : Option Nat × Message :=
  if m.readPos + w > m.buffer.length then (none, m)
  else (some (decodeNat ((m.buffer.drop m.readPos).take w)),
        { m with readPos := m.readPos + w })

/-- Outcome of a string pop: the extracted bytes, the
`DeserializationFailed` exception, or the out-of-contract
`data.assign` path (`std::length_error` / undefined behaviour) reached
when a forged length prefix makes the `size_t` bounds check wrap. -/
inductive StrPop where
  | ok (s : List Nat)
  | deserializationFailed
  | lengthError
  deriving DecidableEq, Repr

/-- `Message::operator>><std::string>`: first extracts the 8-byte
(`size_t`) length prefix through the scalar path, then checks
`readPos + size > buffer.size()` in `size_t` arithmetic, i.e. with the
sum reduced mod `2 ^ 64`; the cursor mutation of the length read
persists even when that check throws, exactly as in the source.  When
the wrapped check passes, `data.assign(&buffer[readPos], size)` runs:
it succeeds exactly when the unreduced `readPos + size` fits the
buffer (then `readPos += size` cannot wrap, as both are at most the
`size_t` buffer length); otherwise — only reachable when the check
wrapped — the assign is out of contract and the pop ends in
`lengthError` with the cursor still past the length prefix. -/
def popStr (m : Message) : StrPop × Message :=
  match popScalar m 8 with
  | (none, m1) => (.deserializationFailed, m1)
  | (some size, m1) =>
    if (m1.readPos + size) % 2 ^ 64 > m1.buffer.length then (.deserializationFailed, m1)
    else if m1.readPos + size ≤ m1.buffer.length then
      (.ok ((m1.buffer.drop m1.readPos).take size),
       { m1 with readPos := m1.readPos + size })
    else (.lengthError, m1)

/-- A typed value that can be appended to a `Message`: a fixed-size
scalar of `w` bytes, or a string (raw byte list). -/
inductive Val where
  | scalar (w : Nat) (v : Nat)
  | str (s : List Nat)
  deriving DecidableEq, Repr

/-- The extraction type matching a value. -/
inductive Ty where
  | scalar (w : Nat)
  | str
  deriving DecidableEq, Repr

/-- Type tag of a value. -/
def Val.ty : Val → Ty
  | .scalar w _ => .scalar w
  | .str _ => .str

/-- Well-formedness of a value as C++ produces it: a scalar occupies at
least one byte and its value fits its width; a string length fits in
`size_t`. -/
def wfVal : Val → Prop
  | .scalar w v => 1 ≤ w ∧ v < 256 ^ w
  | .str s => s.length < 256 ^ 8

instance (v : Val) : Decidable (wfVal v) := by
  cases v <;> (unfold wfVal; infer_instance)

/-- The bytes a single `operator<<` appends to the payload. -/
def encVal : Val → List Nat
  | .scalar w v => encodeNat w v
  | .str s => encodeNat 8 s.length ++ s

/-- `Message::operator<<`: appends the encoding of `v` to the payload
(for a string, the 8-byte length prefix followed by the raw bytes). -/
def pushVal (m : Message) (v : Val) : Message :=
  match v with
  | .scalar w x => { m with buffer := m.buffer ++ encodeNat w x }
  | .str s => { m with buffer := (m.buffer ++ encodeNat 8 s.length) ++ s }

/-- `Message::operator>>` dispatched on the requested type. -/
def popVal (m : Message) (t : Ty) : Option Val × Message :=
  match t with
  | .scalar w =>
    match popScalar m w with
    | (none, m1) => (none, m1)
    | (some x, m1) => (some (.scalar w x), m1)
  | .str =>
    match popStr m with
    | (.ok s, m1) => (some (.str s), m1)
    | (_, m1) => (none, m1)

/-- A chain of `operator<<` calls. -/
def pushList (m : Message) (vs : List Val) : Message :=
  vs.foldl pushVal m

/-- Concatenated encoding of a list of values. -/
def encList : List Val → List Nat
  | [] => []
  | v :: vs => encVal v ++ encList vs

/-- A chain of `operator>>` calls with the given extraction types; stops
at the first failure.  The returned message is the post-state. -/
def popList (m : Message) (ts : List Ty) : Option (List Val) × Message :=
  match ts with
  | [] => (some [], m)
  | t :: rest =>
    match popVal m t with
    | (none, m1) => (none, m1)
    | (some v, m1) =>
      match popList m1 rest with
      | (none, m2) => (none, m2)
      | (some vs, m2) => (some (v :: vs), m2)

/-- `Message::serialize`: the 4-byte type field followed by the payload. -/
def serialize (m : Message) : List Nat :=
  encodeNat 4 m.msgType ++ m.buffer

/-- `Message::deserialize`: fails on fewer than 4 bytes leaving the
object untouched; otherwise replaces type and payload and resets the
cursor. -/
def deserialize (m : Message) (data : List Nat) : Option Unit × Message :=
  if data.length < 4 then (none, m)
  else (some (), { msgType := decodeNat (data.take 4), buffer := data.drop 4, readPos := 0 })

/-- The copy constructor `Message::Message(const Message&)`: copies type
and payload, resets the cursor. -/
def copyMessage (other : Message) : Message :=
  { msgType := other.msgType, buffer := other.buffer, readPos := 0 }

/-- `Message::operator=`: the `this != &other` guard is the `sameObject`
flag; on a genuine copy assigns type and payload and resets the cursor. -/
def assignMessage (sameObject : Bool) (dst src : Message) : Message :=
  if sameObject then dst
  else { msgType := src.msgType, buffer := src.buffer, readPos := 0 }

/-! ### Codec lemmas -/

lemma encodeNat_length (w v : Nat) : (encodeNat w v).length = w := by
  induction w generalizing v with
  | zero => simp [encodeNat]
  | succ w ih => simp [encodeNat, ih]

lemma decodeNat_encodeNat (w v : Nat) : decodeNat (encodeNat w v) = v % 256 ^ w := by
  induction w generalizing v with
  | zero => simp [encodeNat, decodeNat, Nat.mod_one]
  | succ w ih =>
    simp only [encodeNat, decodeNat, ih]
    rw [pow_succ', Nat.mod_mul]

lemma decodeNat_encodeNat_of_lt (w v : Nat) (h : v < 256 ^ w) :
    decodeNat (encodeNat w v) = v := by
  rw [decodeNat_encodeNat, Nat.mod_eq_of_lt h]

lemma take_at_len (l1 l2 : List Nat) (n : Nat) (h : n = l1.length) :
    (l1 ++ l2).take n = l1 := by
  subst h; exact List.take_left l1 l2

lemma drop_at_len (l1 l2 : List Nat) (n : Nat) (h : n = l1.length) :
    (l1 ++ l2).drop n = l2 := by
  subst h; exact List.drop_left l1 l2

lemma popScalar_at (t : Nat) (pre rest : List Nat) (w x : Nat) (hx : x < 256 ^ w) :
    popScalar { msgType := t, buffer := pre ++ (encodeNat w x ++ rest), readPos := pre.length } w
      = (some x, { msgType := t, buffer := pre ++ (encodeNat w x ++ rest),
                   readPos := pre.length + w }) := by
  unfold popScalar
  rw [if_neg (by simp [encodeNat_length])]
  have hd : ((pre ++ (encodeNat w x ++ rest)).drop pre.length) = encodeNat w x ++ rest :=
    drop_at_len _ _ _ rfl
  rw [hd, take_at_len _ _ _ (encodeNat_length w x).symm, decodeNat_encodeNat_of_lt w x hx]

lemma popStr_at (t : Nat) (pre rest s : List Nat) (hs : s.length < 256 ^ 8) :
    popStr { msgType := t, buffer := pre ++ ((encodeNat 8 s.length ++ s) ++ rest),
             readPos := pre.length }
      = (.ok s, { msgType := t, buffer := pre ++ ((encodeNat 8 s.length ++ s) ++ rest),
                  readPos := pre.length + (8 + s.length) }) := by
  have hb : pre ++ ((encodeNat 8 s.length ++ s) ++ rest)
      = pre ++ (encodeNat 8 s.length ++ (s ++ rest)) := by
    simp [List.append_assoc]
  rw [hb]
  simp only [popStr, popScalar_at t pre (s ++ rest) 8 s.length hs]
  have hlen : (pre ++ (encodeNat 8 s.length ++ (s ++ rest))).length
      = pre.length + 8 + (s.length + rest.length) := by
    simp [encodeNat_length]; omega
  rw [if_neg (by
    rw [hlen]
    exact not_lt.mpr (le_trans (Nat.mod_le _ _) (by omega))), if_pos (by rw [hlen]; omega)]
  have hb2 : pre ++ (encodeNat 8 s.length ++ (s ++ rest))
      = (pre ++ encodeNat 8 s.length) ++ (s ++ rest) := by
    simp [List.append_assoc]
  have hd : ((pre ++ (encodeNat 8 s.length ++ (s ++ rest))).drop (pre.length + 8))
      = s ++ rest := by
    rw [hb2]
    exact drop_at_len _ _ _ (by simp [encodeNat_length])
  rw [hd, take_at_len s rest s.length rfl]
  have hb3 : pre ++ (encodeNat 8 s.length ++ (s ++ rest))
      = pre ++ ((encodeNat 8 s.length ++ s) ++ rest) := by
    simp [List.append_assoc]
  rw [hb3]
  congr 2
  omega

lemma encVal_length_scalar (w v : Nat) : (encVal (.scalar w v)).length = w := by
  simp [encVal, encodeNat_length]

lemma popVal_at (t : Nat) (pre rest : List Nat) (v : Val) (hv : wfVal v) :
    popVal { msgType := t, buffer := pre ++ (encVal v ++ rest), readPos := pre.length } v.ty
      = (some v, { msgType := t, buffer := pre ++ (encVal v ++ rest),
                   readPos := pre.length + (encVal v).length }) := by
  cases v with
  | scalar w x =>
    obtain ⟨-, hx⟩ := hv
    simp only [Val.ty, popVal, encVal]
    rw [popScalar_at t pre rest w x hx, encodeNat_length]
  | str s =>
    simp only [Val.ty, popVal, encVal]
    rw [popStr_at t pre rest s hv]
    simp [encodeNat_length]

lemma pushVal_eq (m : Message) (v : Val) :
    pushVal m v = { m with buffer := m.buffer ++ encVal v } := by
  cases v <;> simp [pushVal, encVal, List.append_assoc]

lemma pushList_eq (vs : List Val) (m : Message) :
    pushList m vs = { m with buffer := m.buffer ++ encList vs } := by
  induction vs generalizing m with
  | nil => simp [pushList, encList]
  | cons v vs ih =>
    show pushList (pushVal m v) vs = _
    rw [ih, pushVal_eq]
    simp [encList, List.append_assoc]

lemma popList_append (t : Nat) (vs : List Val) (pre rest : List Nat)
    (h : ∀ v ∈ vs, wfVal v) :
    popList { msgType := t, buffer := pre ++ (encList vs ++ rest), readPos := pre.length }
        (vs.map Val.ty)
      = (some vs, { msgType := t, buffer := pre ++ (encList vs ++ rest),
                    readPos := pre.length + (encList vs).length }) := by
  induction vs generalizing pre with
  | nil => simp [popList, encList]
  | cons v vs ih =>
    have hb : pre ++ (encList (v :: vs) ++ rest)
        = pre ++ (encVal v ++ (encList vs ++ rest)) := by
      simp [encList, List.append_assoc]
    have hv := popVal_at t pre (encList vs ++ rest) v (h v (by simp))
    have hrec := ih (pre ++ encVal v) (fun x hx => h x (by simp [hx]))
    simp only [List.map_cons, popList, hb, hv]
    have hb2 : pre ++ (encVal v ++ (encList vs ++ rest))
        = (pre ++ encVal v) ++ (encList vs ++ rest) := by
      simp [List.append_assoc]
    have hp2 : pre.length + (encVal v).length = (pre ++ encVal v).length := by
      simp
    rw [hb2, hp2, hrec]
    simp [encList, List.append_assoc]
    omega

/-! ### Claim C1: append/extract round-trip -/

/-- C1: for every sequence of typed values (fixed-size scalars and
strings, including the empty sequence) appended to a `Message` with
`operator<<` and then extracted with `operator>>` in the same order with
the same types, each extracted value equals the corresponding appended
value. -/
theorem C1_roundtrip (t : Nat) (vs : List Val) (h : ∀ v ∈ vs, wfVal v) :
    popList (pushList { msgType := t, buffer := [], readPos := 0 } vs) (vs.map Val.ty)
      = (some vs, { msgType := t, buffer := encList vs, readPos := (encList vs).length }) := by
  rw [pushList_eq]
  have hp := popList_append t vs [] [] h
  simpa using hp

/-- Witness for C1 at a concrete mixed sequence of scalars and a string. -/
theorem C1_roundtrip_witness :
    popList
        (pushList { msgType := 1, buffer := [], readPos := 0 }
          [Val.scalar 4 7, Val.str [110, 101, 116], Val.scalar 1 255])
        [Ty.scalar 4, Ty.str, Ty.scalar 1]
      = (some [Val.scalar 4 7, Val.str [110, 101, 116], Val.scalar 1 255],
         { msgType := 1,
           buffer := encList [Val.scalar 4 7, Val.str [110, 101, 116], Val.scalar 1 255],
           readPos := (encList [Val.scalar 4 7, Val.str [110, 101, 116], Val.scalar 1 255]).length }) :=
  C1_roundtrip 1 [Val.scalar 4 7, Val.str [110, 101, 116], Val.scalar 1 255] (by decide)

/-! ### Claim C2: pop failure condition and cursor behaviour -/

/-- C2 counterexample: two reachable inputs refute the claim.  First,
the cursor is not always unchanged when `DeserializationFailed` is
raised: with the payload exactly the 8-byte encoding of the length 5
and no body, the string pop raises and the cursor moves from 0 to 8.
Second, a pop does not raise `DeserializationFailed` whenever fewer
bytes remain than the read requires: with a forged length prefix of
`2 ^ 64 - 8` the read requires far more bytes than the 8 present, yet
the `size_t` check wraps to `0 > 8`, passes, and the pop falls into the
out-of-contract `assign` (`std::length_error` / undefined behaviour)
instead of raising `DeserializationFailed`. -/
theorem C2_cursor_counterexample :
    ((popStr { msgType := 0, buffer := encodeNat 8 5, readPos := 0 }).1
        = StrPop.deserializationFailed ∧
     (popStr { msgType := 0, buffer := encodeNat 8 5, readPos := 0 }).2.readPos = 8) ∧
    ((popStr { msgType := 0, buffer := encodeNat 8 (2 ^ 64 - 8), readPos := 0 }).1
        = StrPop.lengthError ∧
     (encodeNat 8 (2 ^ 64 - 8)).length < 8 + (2 ^ 64 - 8)) := by
  decide

/-- C2 amended: a scalar pop raises `DeserializationFailed` exactly when
fewer bytes remain than it requires, leaving the message unchanged on
failure; a string pop whose 8-byte length prefix does not fit raises
with the message unchanged; once the prefix is read, the
`DeserializationFailed` test is the `size_t` comparison
`readPos + size > buffer.size()` with the sum reduced mod `2 ^ 64`:
when it holds the pop raises with the cursor left advanced past the
length prefix; when the unreduced sum fits the buffer the pop succeeds
and the cursor advances past the bytes read; and when the comparison
wrapped (reduced sum in bounds, unreduced sum too large) the pop does
not raise `DeserializationFailed` at all but ends in the out-of-contract
`assign` (`std::length_error` / undefined behaviour), the cursor again
left past the length prefix. -/
theorem C2_pop_amended (m : Message) (w : Nat) :
    (m.buffer.length < m.readPos + w → popScalar m w = (none, m)) ∧
    (m.readPos + w ≤ m.buffer.length →
      popScalar m w = (some (decodeNat ((m.buffer.drop m.readPos).take w)),
                       { m with readPos := m.readPos + w })) ∧
    (m.buffer.length < m.readPos + 8 →
      popStr m = (.deserializationFailed, m)) ∧
    (m.readPos + 8 ≤ m.buffer.length →
      (m.buffer.length
          < (m.readPos + 8 + decodeNat ((m.buffer.drop m.readPos).take 8)) % 2 ^ 64 →
        popStr m = (.deserializationFailed, { m with readPos := m.readPos + 8 })) ∧
      (m.readPos + 8 + decodeNat ((m.buffer.drop m.readPos).take 8) ≤ m.buffer.length →
        popStr m = (.ok ((m.buffer.drop (m.readPos + 8)).take
                           (decodeNat ((m.buffer.drop m.readPos).take 8))),
                    { m with readPos := m.readPos + 8
                               + decodeNat ((m.buffer.drop m.readPos).take 8) })) ∧
      ((m.readPos + 8 + decodeNat ((m.buffer.drop m.readPos).take 8)) % 2 ^ 64
          ≤ m.buffer.length →
        m.buffer.length < m.readPos + 8 + decodeNat ((m.buffer.drop m.readPos).take 8) →
        popStr m = (.lengthError, { m with readPos := m.readPos + 8 }))) := by
  refine ⟨fun h => ?_, fun h => ?_, fun h => ?_,
          fun h => ⟨fun hb => ?_, fun hb => ?_, fun hb1 hb2 => ?_⟩⟩
  · unfold popScalar
    rw [if_pos (by omega)]
  · unfold popScalar
    rw [if_neg (by omega)]
  · unfold popStr popScalar
    rw [if_pos (by omega)]
  · unfold popStr popScalar
    rw [if_neg (by omega)]
    simp only
    rw [if_pos (by simpa using hb)]
  · unfold popStr popScalar
    rw [if_neg (by omega)]
    simp only
    rw [if_neg (not_lt.mpr (le_trans (Nat.mod_le _ _) (by simpa using hb))),
        if_pos (by simpa using hb)]
  · unfold popStr popScalar
    rw [if_neg (by omega)]
    simp only
    rw [if_neg (not_lt.mpr (by simpa using hb1)), if_neg (not_le.mpr (by simpa using hb2))]

/-- Witness for C2 amended: a successful 2-byte scalar pop, and the
forged-prefix string pop that ends in the `length_error` path, both
through the theorem. -/
theorem C2_pop_amended_witness :
    popScalar { msgType := 0, buffer := [7, 1, 9], readPos := 0 } 2
      = (some (decodeNat (([7, 1, 9].drop 0).take 2)),
         { msgType := 0, buffer := [7, 1, 9], readPos := 0 + 2 }) ∧
    popStr { msgType := 0, buffer := encodeNat 8 (2 ^ 64 - 8), readPos := 0 }
      = (.lengthError,
         { msgType := 0, buffer := encodeNat 8 (2 ^ 64 - 8), readPos := 0 + 8 }) :=
  ⟨(C2_pop_amended { msgType := 0, buffer := [7, 1, 9], readPos := 0 } 2).2.1 (by decide),
   ((C2_pop_amended { msgType := 0, buffer := encodeNat 8 (2 ^ 64 - 8), readPos := 0 } 8).2.2.2
      (by decide)).2.2 (by decide) (by decide)⟩

/-! ### Claim C3: deserialize -/

/-- C3: `deserialize` on fewer than 4 bytes fails and leaves the message
(type, payload and cursor) unchanged; on at least 4 bytes it replaces the
type with the first 4 bytes, the payload with the remaining bytes, and
resets the read cursor to zero. -/
theorem C3_deserialize (m : Message) (data : List Nat) :
    (data.length < 4 → deserialize m data = (none, m)) ∧
    (4 ≤ data.length →
      deserialize m data
        = (some (), { msgType := decodeNat (data.take 4), buffer := data.drop 4,
                      readPos := 0 })) := by
  constructor
  · intro h
    unfold deserialize
    rw [if_pos h]
  · intro h
    unfold deserialize
    rw [if_neg (by omega)]

/-- Witness for C3 at a concrete 6-byte input and a concrete starting
message: the type becomes the first 4 bytes, the payload the rest, the
cursor zero; and at a 3-byte input the message is untouched. -/
theorem C3_deserialize_witness :
    deserialize { msgType := 9, buffer := [1], readPos := 1 } [2, 0, 0, 0, 5, 6]
      = (some (), { msgType := decodeNat ([2, 0, 0, 0, 5, 6].take 4),
                    buffer := [2, 0, 0, 0, 5, 6].drop 4, readPos := 0 }) ∧
    deserialize { msgType := 9, buffer := [1], readPos := 1 } [2, 0, 0]
      = (none, { msgType := 9, buffer := [1], readPos := 1 }) :=
  ⟨(C3_deserialize { msgType := 9, buffer := [1], readPos := 1 } [2, 0, 0, 0, 5, 6]).2
      (by decide),
   (C3_deserialize { msgType := 9, buffer := [1], readPos := 1 } [2, 0, 0]).1 (by decide)⟩

/-! ### Claim C10: copying resets the read cursor -/

/-- C10: for every `Message` whose read cursor has advanced past zero,
copy construction and (non-self) copy assignment produce a message with
equal type and equal payload but with the read cursor reset to zero. -/
theorem C10_copy_resets_cursor (src dst : Message) (h : 0 < src.readPos) :
    (copyMessage src).msgType = src.msgType ∧
    (copyMessage src).buffer = src.buffer ∧
    (copyMessage src).readPos = 0 ∧
    (assignMessage false dst src).msgType = src.msgType ∧
    (assignMessage false dst src).buffer = src.buffer ∧
    (assignMessage false dst src).readPos = 0 := by
  simp [copyMessage, assignMessage]

/-- Witness for C10 at a concrete source with cursor 2. -/
theorem C10_copy_resets_cursor_witness :
    (copyMessage { msgType := 3, buffer := [1, 2, 3], readPos := 2 }).readPos = 0 ∧
    (assignMessage false { msgType := 0, buffer := [], readPos := 0 }
        { msgType := 3, buffer := [1, 2, 3], readPos := 2 }).readPos = 0 :=
  ⟨(C10_copy_resets_cursor { msgType := 3, buffer := [1, 2, 3], readPos := 2 }
      { msgType := 0, buffer := [], readPos := 0 } (by decide)).2.2.1,
   (C10_copy_resets_cursor { msgType := 3, buffer := [1, 2, 3], readPos := 2 }
      { msgType := 0, buffer := [], readPos := 0 } (by decide)).2.2.2.2.2⟩

/-! ### Client and Server state models

Callbacks (`std::function` values) are modelled by identifiers; an
action table entry maps a message type to `some cb` for a real callback
and to `none` for a default-constructed (null) `std::function`, which
the dispatch loops of the source skip.  Queues are lists with the front
at the head.  `update` returns the trace of callback invocations it
performs, in order, next to the raised error (if any) and the
post-state. -/

/-- Association-list lookup keyed on `Nat`, first match wins, as used
for the client table, the per-client outbound queues and the action
tables. -/
def lookupKey {β : Type} : List (Nat × β) → Nat → Option β
  | [], _ => none
  | (k, b) :: rest, key => if k = key then some b else lookupKey rest key

/-- Removal of a key, as `std::map::erase`. -/
def eraseKey {β : Type} : List (Nat × β) → Nat → List (Nat × β)
  | [], _ => []
  | (k, b) :: rest, key =>
    if k = key then eraseKey rest key else (k, b) :: eraseKey rest key

/-- Errors a `Client` member function can raise. -/
inductive CliError where
  | alreadyConnected
  | notConnected
  | connectionFailed
  | sendingFailed
  deriving DecidableEq, Repr

/-- State of a `Client` object.  `receiverRunning` tracks whether the
receiver thread is live (it is joined by `disconnect`). -/
structure ClientState where
  sockfd : Int
  isConnected : Bool
  shouldStop : Bool
  receiverRunning : Bool
  receivedMessages : List Message
  messagesToSend : List Message
  actions : List (Nat × Option Nat)
  deriving DecidableEq, Repr

/-- `Client::disconnect`: a no-op when not connected; otherwise sets the
stop flag, clears the connected flag, joins the receiver thread, closes
the socket and discards both queues. -/
def clientDisconnect (s : ClientState) : ClientState :=
  if !s.isConnected then s
  else { s with shouldStop := true, isConnected := false,
                receiverRunning := false, sockfd := -1,
                receivedMessages := [], messagesToSend := [] }

/-- `Client::send`: raises `NotConnected` when not connected, otherwise
enqueues on the outbound queue. -/
def clientSend (s : ClientState) (msg : Message) : Option CliError × ClientState :=
  if !s.isConnected then (some .notConnected, s)
  else (none, { s with messagesToSend := s.messagesToSend ++ [msg] })

/-- The drain loop of `Client::update`: front to back, look the type up
in the drained action-table snapshot and invoke the callback when one is
registered and non-null; the returned list is the invocation trace. -/
def dispatchLoop : List Message → List (Nat × Option Nat) → List (Nat × Message)
  | [], _ => []
  | msg :: rest, acts =>
    match lookupKey acts msg.msgType with
    | some (some cb) => (cb, msg) :: dispatchLoop rest acts
    | _ => dispatchLoop rest acts

/-- `Client::update`: raises `NotConnected` when not connected;
otherwise swaps out the inbound queue, snapshots the action table and
dispatches every drained message in arrival order. -/
def clientUpdate (s : ClientState) : Option CliError × List (Nat × Message) × ClientState :=
  if !s.isConnected then (some .notConnected, [], s)
  else (none, dispatchLoop s.receivedMessages s.actions,
        { s with receivedMessages := [] })

/-- Errors a `Server` member function can raise. -/
inductive SrvError where
  | alreadyStarted
  | notStarted
  | startFailed
  | unknownClient
  | sendingFailed
  | batchSendingFailed
  deriving DecidableEq, Repr

/-- State of a `Server` object. -/
structure ServerState where
  serverSocket : Int
  isRunning : Bool
  shouldStop : Bool
  nextClientID : Nat
  clients : List (Nat × Int)
  receivedMessages : List (Nat × Message)
  messagesToSend : List (Nat × List Message)
  actions : List (Nat × Option Nat)
  deriving DecidableEq, Repr

/-- The outbound queue of a client, empty when the map holds no entry
(`std::map::operator[]` default-constructs). -/
def getQueue (q : List (Nat × List Message)) (cid : Nat) : List Message :=
  (lookupKey q cid).getD []

/-- `messagesToSend[cid].push(msg)`: append to the entry of `cid`,
creating it when absent. -/
def pushQueue : List (Nat × List Message) → Nat → Message → List (Nat × List Message)
  | [], cid, msg => [(cid, [msg])]
  | (k, q) :: rest, cid, msg =>
    if k = cid then (k, q ++ [msg]) :: rest
    else (k, q) :: pushQueue rest cid msg

/-- `messagesToSend[cid] = std::queue<Message>()`: overwrite the entry
of `cid` with the given queue, creating it when absent. -/
def setQueue : List (Nat × List Message) → Nat → List Message → List (Nat × List Message)
  | [], cid, q => [(cid, q)]
  | (k, q0) :: rest, cid, q =>
    if k = cid then (k, q) :: rest
    else (k, q0) :: setQueue rest cid q

/-- `Server::sendTo`: raises `NotStarted` when not running, raises
`UnknownClient` when the ID is not in the client table (leaving all
state untouched), otherwise appends the message to that client's
outbound queue. -/
def sendTo (s : ServerState) (msg : Message) (cid : Nat) : Option SrvError × ServerState :=
  if !s.isRunning then (some .notStarted, s)
  else if (lookupKey s.clients cid).isNone then (some .unknownClient, s)
  else (none, { s with messagesToSend := pushQueue s.messagesToSend cid msg })

/-- The loop of `Server::sendToArray`: calls `sendTo` per target,
catching only `UnknownClient` (which sets the error flag and moves on);
any other error propagates out of the loop unchanged. -/
def sendToArrayLoop (msg : Message) :
    ServerState → List Nat → Bool → Option SrvError × Bool × ServerState
  | s, [], err => (none, err, s)
  | s, cid :: rest, err =>
    match sendTo s msg cid with
    | (some .unknownClient, s1) => sendToArrayLoop msg s1 rest true
    | (some e, s1) => (some e, err, s1)
    | (none, s1) => sendToArrayLoop msg s1 rest err

/-- `Server::sendToArray`: raises `NotStarted` when not running;
otherwise attempts every target and raises `BatchSendingFailed` at the
end when at least one target was unknown. -/
def sendToArray (s : ServerState) (msg : Message) (cids : List Nat) :
    Option SrvError × ServerState :=
  if !s.isRunning then (some .notStarted, s)
  else
    match sendToArrayLoop msg s cids false with
    | (some e, _, s1) => (some e, s1)
    | (none, true, s1) => (some .batchSendingFailed, s1)
    | (none, false, s1) => (none, s1)

/-- The loop of `Server::sendToAll`: pushes the message onto the
outbound queue of every entry of the client table. -/
def pushAllLoop (msg : Message) :
    List (Nat × Int) → List (Nat × List Message) → List (Nat × List Message)
  | [], q => q
  | (cid, _) :: rest, q => pushAllLoop msg rest (pushQueue q cid msg)

/-- `Server::sendToAll`: raises `NotStarted` when not running; otherwise
pushes the message for every client in the table (the per-push catch in
the source can never fire, so no `BatchSendingFailed` is raised). -/
def sendToAll (s : ServerState) (msg : Message) : Option SrvError × ServerState :=
  if !s.isRunning then (some .notStarted, s)
  else (none, { s with messagesToSend := pushAllLoop msg s.clients s.messagesToSend })

/-- The drain loop of `Server::update` over `(clientID, message)` pairs. -/
def serverDispatchLoop :
    List (Nat × Message) → List (Nat × Option Nat) → List (Nat × Nat × Message)
  | [], _ => []
  | (cid, msg) :: rest, acts =>
    match lookupKey acts msg.msgType with
    | some (some cb) => (cb, cid, msg) :: serverDispatchLoop rest acts
    | _ => serverDispatchLoop rest acts

/-- `Server::update`: raises `NotStarted` when not running; otherwise
swaps out the shared inbound queue, snapshots the action table and
dispatches every drained `(clientID, message)` pair in arrival order. -/
def serverUpdate (s : ServerState) :
    Option SrvError × List (Nat × Nat × Message) × ServerState :=
  if !s.isRunning then (some .notStarted, [], s)
  else (none, serverDispatchLoop s.receivedMessages s.actions,
        { s with receivedMessages := [] })

/-- A new connection accepted in `Server::acceptorLoop`: the next ID is
assigned and incremented, the client is registered with an empty
outbound queue; returns the assigned ID. -/
def acceptClient (s : ServerState) (fd : Int) : ServerState × Nat :=
  ({ s with nextClientID := s.nextClientID + 1,
            clients := s.clients ++ [(s.nextClientID, fd)],
            messagesToSend := setQueue s.messagesToSend s.nextClientID [] },
   s.nextClientID)

/-- The cleanup at the end of `Server::handleClient`: the client is
removed from the client table and from the pending outbound queues. -/
def removeClient (s : ServerState) (cid : Nat) : ServerState :=
  { s with clients := eraseKey s.clients cid,
           messagesToSend := eraseKey s.messagesToSend cid }

/-- Accept and disconnect events as they reach the `Server`. -/
inductive SrvEvent where
  | accept (fd : Int)
  | disc (cid : Nat)
  deriving DecidableEq, Repr

/-- Runs a sequence of accept/disconnect events, collecting the assigned
client IDs in order. -/
def runEvents : ServerState → List SrvEvent → ServerState × List Nat
  | s, [] => (s, [])
  | s, .accept fd :: rest =>
    let p := acceptClient s fd
    let q := runEvents p.1 rest
    (q.1, p.2 :: q.2)
  | s, .disc cid :: rest => runEvents (removeClient s cid) rest

/-- Number of accept events in a sequence. -/
def countAccepts : List SrvEvent → Nat
  | [] => 0
  | .accept _ :: rest => countAccepts rest + 1
  | .disc _ :: rest => countAccepts rest

/-- The state `Server::Server()` constructs: not running, next client ID
is 1, empty tables. -/
def initServer : ServerState :=
  { serverSocket := -1, isRunning := false, shouldStop := false, nextClientID := 1,
    clients := [], receivedMessages := [], messagesToSend := [], actions := [] }

/-- The server right after a successful `start`. -/
def startedServer : ServerState :=
  { initServer with serverSocket := 3, isRunning := true }

/-! ### Dispatch lemmas and claim C4 -/

lemma dispatchLoop_eq_filterMap (q : List Message) (acts : List (Nat × Option Nat)) :
    dispatchLoop q acts
      = q.filterMap
          (fun m => ((lookupKey acts m.msgType).join).map (fun cb => (cb, m))) := by
  induction q with
  | nil => simp [dispatchLoop]
  | cons msg rest ih =>
    cases h : lookupKey acts msg.msgType with
    | none => simp [dispatchLoop, h, ih, Option.join]
    | some o => cases o <;> simp [dispatchLoop, h, ih, Option.join]

lemma serverDispatchLoop_eq_filterMap (q : List (Nat × Message))
    (acts : List (Nat × Option Nat)) :
    serverDispatchLoop q acts
      = q.filterMap
          (fun p => ((lookupKey acts p.2.msgType).join).map (fun cb => (cb, p.1, p.2))) := by
  induction q with
  | nil => simp [serverDispatchLoop]
  | cons p rest ih =>
    rcases p with ⟨cid, msg⟩
    cases h : lookupKey acts msg.msgType with
    | none => simp [serverDispatchLoop, h, ih, Option.join]
    | some o => cases o <;> simp [serverDispatchLoop, h, ih, Option.join]

/-- C4: when connected (resp. running), `update` dispatches exactly the
drained inbound queue in arrival order, invoking per message the
callback registered for its type and silently discarding messages whose
type has none; the queue is emptied, so a second `update` dispatches
nothing; when not connected (resp. not running) it raises `NotConnected`
(resp. `NotStarted`) leaving the state unchanged. -/
theorem C4_update_dispatch (s : ClientState) (t : ServerState) :
    (s.isConnected = true →
      clientUpdate s
        = (none,
           s.receivedMessages.filterMap
             (fun m => ((lookupKey s.actions m.msgType).join).map (fun cb => (cb, m))),
           { s with receivedMessages := [] }) ∧
      (clientUpdate (clientUpdate s).2.2).2.1 = []) ∧
    (s.isConnected = false → clientUpdate s = (some .notConnected, [], s)) ∧
    (t.isRunning = true →
      serverUpdate t
        = (none,
           t.receivedMessages.filterMap
             (fun p => ((lookupKey t.actions p.2.msgType).join).map (fun cb => (cb, p.1, p.2))),
           { t with receivedMessages := [] }) ∧
      (serverUpdate (serverUpdate t).2.2).2.1 = []) ∧
    (t.isRunning = false → serverUpdate t = (some .notStarted, [], t)) := by
  refine ⟨fun hc => ⟨?_, ?_⟩, fun hc => ?_, fun hr => ⟨?_, ?_⟩, fun hr => ?_⟩
  · simp [clientUpdate, hc, dispatchLoop_eq_filterMap]
  · simp [clientUpdate, hc, dispatchLoop]
  · simp [clientUpdate, hc]
  · simp [serverUpdate, hr, serverDispatchLoop_eq_filterMap]
  · simp [serverUpdate, hr, serverDispatchLoop]
  · simp [serverUpdate, hr]

/-- Witness for C4 at a connected client holding two queued messages of
which only the first has a registered action, and at a stopped server. -/
theorem C4_update_dispatch_witness :
    clientUpdate
        { sockfd := 5, isConnected := true, shouldStop := false, receiverRunning := true,
          receivedMessages := [{ msgType := 1, buffer := [], readPos := 0 },
                               { msgType := 2, buffer := [], readPos := 0 }],
          messagesToSend := [], actions := [(1, some 10)] }
      = (none, [(10, { msgType := 1, buffer := [], readPos := 0 })],
         { sockfd := 5, isConnected := true, shouldStop := false, receiverRunning := true,
           receivedMessages := [], messagesToSend := [], actions := [(1, some 10)] }) ∧
    serverUpdate initServer = (some .notStarted, [], initServer) :=
  ⟨(((C4_update_dispatch
      { sockfd := 5, isConnected := true, shouldStop := false, receiverRunning := true,
        receivedMessages := [{ msgType := 1, buffer := [], readPos := 0 },
                             { msgType := 2, buffer := [], readPos := 0 }],
        messagesToSend := [], actions := [(1, some 10)] }
      initServer).1 (by decide)).1).trans (by decide),
   ((C4_update_dispatch
      { sockfd := 5, isConnected := true, shouldStop := false, receiverRunning := true,
        receivedMessages := [{ msgType := 1, buffer := [], readPos := 0 },
                             { msgType := 2, buffer := [], readPos := 0 }],
        messagesToSend := [], actions := [(1, some 10)] }
      initServer).2.2.2 (by decide))⟩

/-! ### Claim C5: client ID assignment -/

lemma runEvents_ids (evs : List SrvEvent) :
    ∀ s : ServerState, (runEvents s evs).2
      = List.range' s.nextClientID (countAccepts evs) := by
  induction evs with
  | nil => intro s; simp [runEvents, countAccepts]
  | cons e rest ih =>
    intro s
    cases e with
    | accept fd =>
      simp [runEvents, countAccepts, acceptClient, ih, List.range'_succ]
    | disc cid =>
      simp [runEvents, countAccepts, removeClient, ih]

/-- C5: over any sequence of accepted connections and disconnections,
the client IDs a server assigns are exactly `1, 2, ..., N` in order:
strictly increasing from 1, pairwise distinct, and an ID is never
assigned a second time even after its client disconnected. -/
theorem C5_clientIDs (evs : List SrvEvent) :
    (runEvents startedServer evs).2 = List.range' 1 (countAccepts evs) ∧
    List.Pairwise (· < ·) (runEvents startedServer evs).2 ∧
    (runEvents startedServer evs).2.Nodup := by
  have h : (runEvents startedServer evs).2 = List.range' 1 (countAccepts evs) :=
    runEvents_ids evs startedServer
  refine ⟨h, ?_, ?_⟩ <;> rw [h]
  · exact List.pairwise_lt_range' 1 (countAccepts evs)
  · exact List.nodup_range' 1 (countAccepts evs)

/-! ### Claim C6: sendTo -/

lemma getQueue_pushQueue_same (q : List (Nat × List Message)) (cid : Nat) (msg : Message) :
    getQueue (pushQueue q cid msg) cid = getQueue q cid ++ [msg] := by
  induction q with
  | nil => simp [pushQueue, getQueue, lookupKey]
  | cons p rest ih =>
    rcases p with ⟨k, qq⟩
    simp only [getQueue] at ih ⊢
    by_cases hk : k = cid <;> simp [pushQueue, lookupKey, hk, ih]

lemma getQueue_pushQueue_ne (q : List (Nat × List Message)) (cid c : Nat) (msg : Message)
    (h : c ≠ cid) : getQueue (pushQueue q cid msg) c = getQueue q c := by
  have hcid : cid ≠ c := Ne.symm h
  induction q with
  | nil => simp [pushQueue, getQueue, lookupKey, hcid]
  | cons p rest ih =>
    rcases p with ⟨k, qq⟩
    simp only [getQueue] at ih ⊢
    by_cases hk : k = cid
    · subst hk
      simp [pushQueue, lookupKey, hcid]
    · by_cases hkc : k = c <;> simp [pushQueue, lookupKey, hk, hkc, h, ih]

/-- C6: `sendTo` raises `NotStarted` when the server is not running and
`UnknownClient` when the target ID is absent from the client table, in
both cases leaving the whole server state unchanged; when the target is
present it appends the message to exactly that client's outbound queue
and changes nothing else. -/
theorem C6_sendTo (s : ServerState) (msg : Message) (cid : Nat) :
    (s.isRunning = false → sendTo s msg cid = (some .notStarted, s)) ∧
    (s.isRunning = true → lookupKey s.clients cid = none →
      sendTo s msg cid = (some .unknownClient, s)) ∧
    (s.isRunning = true → (lookupKey s.clients cid).isSome = true →
      (sendTo s msg cid).1 = none ∧
      getQueue (sendTo s msg cid).2.messagesToSend cid
        = getQueue s.messagesToSend cid ++ [msg] ∧
      (∀ c, c ≠ cid →
        getQueue (sendTo s msg cid).2.messagesToSend c = getQueue s.messagesToSend c) ∧
      (sendTo s msg cid).2.clients = s.clients ∧
      (sendTo s msg cid).2.isRunning = s.isRunning ∧
      (sendTo s msg cid).2.receivedMessages = s.receivedMessages ∧
      (sendTo s msg cid).2.actions = s.actions ∧
      (sendTo s msg cid).2.nextClientID = s.nextClientID) := by
  refine ⟨fun hr => ?_, fun hr hn => ?_, fun hr hs => ?_⟩
  · simp [sendTo, hr]
  · simp [sendTo, hr, hn]
  · obtain ⟨fd, hfd⟩ := Option.isSome_iff_exists.mp hs
    simp [sendTo, hr, hfd, getQueue_pushQueue_same]
    exact fun c hc => getQueue_pushQueue_ne s.messagesToSend cid c msg hc

/-- Witness for C6: a running server with one client 1; sending to 1
succeeds and appends, sending to 2 raises `UnknownClient` unchanged. -/
theorem C6_sendTo_witness :
    sendTo { startedServer with clients := [(1, 7)] }
        { msgType := 3, buffer := [], readPos := 0 } 2
      = (some .unknownClient, { startedServer with clients := [(1, 7)] }) ∧
    getQueue (sendTo { startedServer with clients := [(1, 7)] }
        { msgType := 3, buffer := [], readPos := 0 } 1).2.messagesToSend 1
      = getQueue ({ startedServer with clients := [(1, 7)] }).messagesToSend 1
          ++ [{ msgType := 3, buffer := [], readPos := 0 }] :=
  ⟨(C6_sendTo { startedServer with clients := [(1, 7)] }
      { msgType := 3, buffer := [], readPos := 0 } 2).2.1 (by decide) (by decide),
   ((C6_sendTo { startedServer with clients := [(1, 7)] }
      { msgType := 3, buffer := [], readPos := 0 } 1).2.2 (by decide) (by decide)).2.1⟩

/-! ### Claim C7: sendToArray / sendToAll -/

lemma lookupKey_eq_none_of_not_mem {β : Type} (l : List (Nat × β)) (c : Nat)
    (h : c ∉ l.map Prod.fst) : lookupKey l c = none := by
  induction l with
  | nil => rfl
  | cons p rest ih =>
    rcases p with ⟨k, b⟩
    simp only [List.map_cons, List.mem_cons] at h
    push_neg at h
    have hkc : ¬k = c := fun hh => h.1 hh.symm
    simp [lookupKey, hkc, ih h.2]

lemma sendToArrayLoop_spec (msg : Message) (cids : List Nat) :
    ∀ (s : ServerState) (err : Bool), s.isRunning = true →
    (sendToArrayLoop msg s cids err).1 = none ∧
    (sendToArrayLoop msg s cids err).2.1
      = (err || cids.any (fun c => (lookupKey s.clients c).isNone)) ∧
    (sendToArrayLoop msg s cids err).2.2.clients = s.clients ∧
    (sendToArrayLoop msg s cids err).2.2.isRunning = true ∧
    (sendToArrayLoop msg s cids err).2.2.receivedMessages = s.receivedMessages ∧
    (sendToArrayLoop msg s cids err).2.2.actions = s.actions ∧
    (sendToArrayLoop msg s cids err).2.2.nextClientID = s.nextClientID ∧
    (∀ c, getQueue (sendToArrayLoop msg s cids err).2.2.messagesToSend c
        = getQueue s.messagesToSend c
            ++ List.replicate
                 (if (lookupKey s.clients c).isSome then cids.count c else 0) msg) := by
  induction cids with
  | nil =>
    intro s err hrun
    simp [sendToArrayLoop, hrun]
  | cons cid rest ih =>
    intro s err hrun
    cases hc : lookupKey s.clients cid with
    | none =>
      have hstep : sendTo s msg cid = (some .unknownClient, s) := by
        simp [sendTo, hrun, hc]
      have hloop : sendToArrayLoop msg s (cid :: rest) err
          = sendToArrayLoop msg s rest true := by
        simp [sendToArrayLoop, hstep]
      obtain ⟨i1, i2, i3, i4, i5, i6, i7, i8⟩ := ih s true hrun
      rw [hloop]
      refine ⟨i1, ?_, i3, i4, i5, i6, i7, ?_⟩
      · rw [i2]; simp [hc]
      · intro c
        rw [i8 c]
        by_cases hcc : c = cid
        · subst hcc; simp [hc]
        · rw [List.count_cons_of_ne hcc]
    | some fd =>
      have hstep : sendTo s msg cid
          = (none, { s with messagesToSend := pushQueue s.messagesToSend cid msg }) := by
        simp [sendTo, hrun, hc]
      have hloop : sendToArrayLoop msg s (cid :: rest) err
          = sendToArrayLoop msg
              { s with messagesToSend := pushQueue s.messagesToSend cid msg } rest err := by
        simp [sendToArrayLoop, hstep]
      obtain ⟨i1, i2, i3, i4, i5, i6, i7, i8⟩ :=
        ih { s with messagesToSend := pushQueue s.messagesToSend cid msg } err hrun
      rw [hloop]
      refine ⟨i1, ?_, by simpa using i3, i4, by simpa using i5, by simpa using i6,
              by simpa using i7, ?_⟩
      · rw [i2]; simp [hc]
      · intro c
        rw [i8 c]
        simp only
        by_cases hcc : c = cid
        · subst hcc
          rw [getQueue_pushQueue_same, List.count_cons_self]
          simp [hc, List.replicate_succ, List.append_assoc]
        · rw [getQueue_pushQueue_ne _ _ _ _ hcc, List.count_cons_of_ne hcc]

lemma pushAllLoop_getQueue (msg : Message) (cl : List (Nat × Int)) :
    ∀ (q : List (Nat × List Message)) (c : Nat), (cl.map Prod.fst).Nodup →
    getQueue (pushAllLoop msg cl q) c
      = getQueue q c ++ (if (lookupKey cl c).isSome then [msg] else []) := by
  induction cl with
  | nil =>
    intro q c _
    simp [pushAllLoop, lookupKey]
  | cons p rest ih =>
    rcases p with ⟨k, fd⟩
    intro q c h
    simp only [List.map_cons, List.nodup_cons] at h
    obtain ⟨hk, hnd⟩ := h
    simp only [pushAllLoop]
    rw [ih (pushQueue q k msg) c hnd]
    by_cases hck : c = k
    · subst hck
      rw [getQueue_pushQueue_same, lookupKey_eq_none_of_not_mem rest c hk]
      simp [lookupKey]
    · rw [getQueue_pushQueue_ne _ _ _ _ hck]
      have hkc : ¬k = c := fun hh => hck hh.symm
      simp [lookupKey, hkc]

/-- C7: when running, `sendToArray` attempts every listed target (it
does not stop at the first failure), appends the message once per
occurrence to the outbound queue of every target present in the client
table, and raises `BatchSendingFailed` exactly when at least one listed
target is absent, with the messages enqueued for the others kept (no
rollback); `sendToAll` enqueues the message for every client in the
table and raises nothing (no target of it can be absent). -/
theorem C7_batch_send (s : ServerState) (msg : Message) (cids : List Nat)
    (hrun : s.isRunning = true) (hnodup : (s.clients.map Prod.fst).Nodup) :
    ((sendToArray s msg cids).1
      = if cids.any (fun c => (lookupKey s.clients c).isNone)
        then some .batchSendingFailed else none) ∧
    (∀ c, getQueue (sendToArray s msg cids).2.messagesToSend c
        = getQueue s.messagesToSend c
            ++ List.replicate
                 (if (lookupKey s.clients c).isSome then cids.count c else 0) msg) ∧
    ((sendToArray s msg cids).2.clients = s.clients) ∧
    ((sendToAll s msg).1 = none) ∧
    (∀ c, (lookupKey s.clients c).isSome = true →
        getQueue (sendToAll s msg).2.messagesToSend c
          = getQueue s.messagesToSend c ++ [msg]) ∧
    (∀ c, lookupKey s.clients c = none →
        getQueue (sendToAll s msg).2.messagesToSend c = getQueue s.messagesToSend c) := by
  obtain ⟨l1, l2, l3, l4, l5, l6, l7, l8⟩ := sendToArrayLoop_spec msg cids s false hrun
  have hsa : sendToArray s msg cids
      = (if cids.any (fun c => (lookupKey s.clients c).isNone)
         then some .batchSendingFailed else none,
         (sendToArrayLoop msg s cids false).2.2) := by
    unfold sendToArray
    rw [if_neg (by simp [hrun])]
    rcases hEq : sendToArrayLoop msg s cids false with ⟨e, b, s1⟩
    rw [hEq] at l1 l2
    simp only at l1 l2
    subst l1
    rw [l2]
    cases hany : cids.any (fun c => (lookupKey s.clients c).isNone) <;> simp
  refine ⟨by rw [hsa], fun c => by rw [hsa]; exact l8 c, by rw [hsa]; exact l3, ?_, ?_, ?_⟩
  · simp [sendToAll, hrun]
  · intro c hcs
    simp only [sendToAll, hrun]
    simp only [Bool.not_true, Bool.false_eq_true, if_false]
    rw [pushAllLoop_getQueue msg s.clients s.messagesToSend c hnodup]
    simp [hcs]
  · intro c hcn
    simp only [sendToAll, hrun]
    simp only [Bool.not_true, Bool.false_eq_true, if_false]
    rw [pushAllLoop_getQueue msg s.clients s.messagesToSend c hnodup]
    simp [hcn]

/-- Witness for C7: a running server with clients 1 and 2;
`sendToArray` to `[1, 3]` raises `BatchSendingFailed` yet client 1 keeps
the enqueued message; `sendToAll` raises nothing. -/
theorem C7_batch_send_witness :
    (sendToArray { startedServer with clients := [(1, 7), (2, 8)] }
        { msgType := 3, buffer := [], readPos := 0 } [1, 3]).1
      = some .batchSendingFailed ∧
    getQueue (sendToArray { startedServer with clients := [(1, 7), (2, 8)] }
        { msgType := 3, buffer := [], readPos := 0 } [1, 3]).2.messagesToSend 1
      = [{ msgType := 3, buffer := [], readPos := 0 }] ∧
    (sendToAll { startedServer with clients := [(1, 7), (2, 8)] }
        { msgType := 3, buffer := [], readPos := 0 }).1 = none :=
  ⟨((C7_batch_send { startedServer with clients := [(1, 7), (2, 8)] }
      { msgType := 3, buffer := [], readPos := 0 } [1, 3] (by decide) (by decide)).1).trans
      (by decide),
   (((C7_batch_send { startedServer with clients := [(1, 7), (2, 8)] }
      { msgType := 3, buffer := [], readPos := 0 } [1, 3] (by decide) (by decide)).2.1 1)).trans
      (by decide),
   (C7_batch_send { startedServer with clients := [(1, 7), (2, 8)] }
      { msgType := 3, buffer := [], readPos := 0 } [1, 3] (by decide) (by decide)).2.2.2.1⟩

/-! ### Claim C8: disconnect -/

/-- C8: `disconnect` is an idempotent no-op when not connected; when
connected it clears the connected flag, sets the stop flag, joins the
receiver thread, closes the socket and empties both queues, after which
`send` and `update` raise `NotConnected` without further mutation. -/
theorem C8_disconnect (s : ClientState) (msg : Message) :
    (s.isConnected = false → clientDisconnect s = s) ∧
    clientDisconnect (clientDisconnect s) = clientDisconnect s ∧
    (s.isConnected = true →
      (clientDisconnect s).isConnected = false ∧
      (clientDisconnect s).shouldStop = true ∧
      (clientDisconnect s).receiverRunning = false ∧
      (clientDisconnect s).sockfd = -1 ∧
      (clientDisconnect s).receivedMessages = [] ∧
      (clientDisconnect s).messagesToSend = [] ∧
      clientSend (clientDisconnect s) msg = (some .notConnected, clientDisconnect s) ∧
      clientUpdate (clientDisconnect s) = (some .notConnected, [], clientDisconnect s)) := by
  refine ⟨fun hc => ?_, ?_, fun hc => ?_⟩
  · simp [clientDisconnect, hc]
  · by_cases hc : s.isConnected <;> simp [clientDisconnect, hc]
  · simp [clientDisconnect, clientSend, clientUpdate, hc]

/-- Witness for C8 at a concrete connected client with queued traffic. -/
theorem C8_disconnect_witness :
    (clientDisconnect
        { sockfd := 5, isConnected := true, shouldStop := false, receiverRunning := true,
          receivedMessages := [{ msgType := 1, buffer := [], readPos := 0 }],
          messagesToSend := [{ msgType := 2, buffer := [], readPos := 0 }],
          actions := [] }).receivedMessages = [] ∧
    clientUpdate (clientDisconnect
        { sockfd := 5, isConnected := true, shouldStop := false, receiverRunning := true,
          receivedMessages := [{ msgType := 1, buffer := [], readPos := 0 }],
          messagesToSend := [{ msgType := 2, buffer := [], readPos := 0 }],
          actions := [] })
      = (some .notConnected, [],
         clientDisconnect
           { sockfd := 5, isConnected := true, shouldStop := false, receiverRunning := true,
             receivedMessages := [{ msgType := 1, buffer := [], readPos := 0 }],
             messagesToSend := [{ msgType := 2, buffer := [], readPos := 0 }],
             actions := [] }) :=
  ⟨((C8_disconnect
      { sockfd := 5, isConnected := true, shouldStop := false, receiverRunning := true,
        receivedMessages := [{ msgType := 1, buffer := [], readPos := 0 }],
        messagesToSend := [{ msgType := 2, buffer := [], readPos := 0 }],
        actions := [] }
      { msgType := 0, buffer := [], readPos := 0 }).2.2 (by decide)).2.2.2.2.1,
   ((C8_disconnect
      { sockfd := 5, isConnected := true, shouldStop := false, receiverRunning := true,
        receivedMessages := [{ msgType := 1, buffer := [], readPos := 0 }],
        messagesToSend := [{ msgType := 2, buffer := [], readPos := 0 }],
        actions := [] }
      { msgType := 0, buffer := [], readPos := 0 }).2.2 (by decide)).2.2.2.2.2.2.2⟩

/-! ### Claim C9: FIFO delivery over a connection

The byte stream of a TCP connection is modelled as the list of bytes the
sending side writes; the sending I/O loop appends one length-prefixed
frame per outbound-queue entry, front first, and the receiving I/O loop
reads frames back in stream order.  The receive loop is written with
explicit fuel (one unit per iteration); the loop of the source runs
until the data is exhausted, which `stream.length` units always cover. -/

/-- One wire frame: the 8-byte length of `serialize(msg)` followed by
`serialize(msg)`, as `sendMessage`/`sendToClient` write it. -/
def frameBytes (m : Message) : List Nat :=
  encodeNat 8 (serialize m).length ++ serialize m

/-- The sending loop draining an outbound queue front to back, writing
each frame to the connection in turn. -/
def senderDrain : List Message → List Nat
  | [] => []
  | m :: rest => frameBytes m ++ senderDrain rest

/-- `Message msg(0); msg.deserialize(dataStr)` as the receive loops run
it on one frame body: `none` when deserialization fails (the frame is
dropped). -/
def parseMessage (data : List Nat) : Option Message :=
  match deserialize { msgType := 0, buffer := [], readPos := 0 } data with
  | (none, _) => none
  | (some _, m) => some m

/-- The receive loop: reads an 8-byte length then that many bytes, stops
when the remaining data cannot fill the read, deserializes each frame
body and enqueues the result in stream order, dropping malformed
frames. -/
def receiverParseFuel : Nat → List Nat → List Message
  | 0, _ => []
  | fuel + 1, stream =>
    if stream.length < 8 then []
    else
      if (stream.drop 8).length < decodeNat (stream.take 8) then []
      else
        match parseMessage ((stream.drop 8).take (decodeNat (stream.take 8))) with
        | some m =>
          m :: receiverParseFuel fuel (stream.drop (8 + decodeNat (stream.take 8)))
        | none => receiverParseFuel fuel (stream.drop (8 + decodeNat (stream.take 8)))

/-- The receive loop run to exhaustion on a finite stream. -/
def receiverParse (stream : List Nat) : List Message :=
  receiverParseFuel stream.length stream

lemma serialize_length (m : Message) : (serialize m).length = 4 + m.buffer.length := by
  simp [serialize, encodeNat_length]

lemma parse_serialize (m : Message) (ht : m.msgType < 256 ^ 4) :
    parseMessage (serialize m)
      = some { msgType := m.msgType, buffer := m.buffer, readPos := 0 } := by
  have h4 : ¬((serialize m).length < 4) := by simp [serialize_length]
  simp only [parseMessage, deserialize, if_neg h4]
  have ht4 : (serialize m).take 4 = encodeNat 4 m.msgType :=
    take_at_len _ _ _ (encodeNat_length 4 m.msgType).symm
  have hd4 : (serialize m).drop 4 = m.buffer :=
    drop_at_len _ _ _ (encodeNat_length 4 m.msgType).symm
  rw [ht4, hd4, decodeNat_encodeNat_of_lt 4 m.msgType ht]

lemma senderDrain_length_ge (msgs : List Message) :
    msgs.length ≤ (senderDrain msgs).length := by
  induction msgs with
  | nil => simp [senderDrain]
  | cons m rest ih =>
    simp only [senderDrain, List.length_append, List.length_cons, frameBytes]
    simp [encodeNat_length]
    omega

lemma receiverParseFuel_drain (msgs : List Message)
    (h : ∀ m ∈ msgs, m.msgType < 256 ^ 4 ∧ 4 + m.buffer.length < 256 ^ 8) :
    ∀ fuel, msgs.length ≤ fuel →
    receiverParseFuel fuel (senderDrain msgs)
      = msgs.map (fun m => { msgType := m.msgType, buffer := m.buffer, readPos := 0 }) := by
  induction msgs with
  | nil =>
    intro fuel _
    cases fuel <;> simp [receiverParseFuel, senderDrain]
  | cons m rest ih =>
    intro fuel hf
    obtain ⟨f, rfl⟩ : ∃ f, fuel = f + 1 := by
      cases fuel
      · simp at hf
      · exact ⟨_, rfl⟩
    obtain ⟨ht, hlen⟩ := h m (by simp)
    have hstream : senderDrain (m :: rest)
        = encodeNat 8 (serialize m).length ++ (serialize m ++ senderDrain rest) := by
      simp [senderDrain, frameBytes, List.append_assoc]
    have htake : (senderDrain (m :: rest)).take 8 = encodeNat 8 (serialize m).length := by
      rw [hstream]
      exact take_at_len _ _ _ (encodeNat_length 8 _).symm
    have hdrop : (senderDrain (m :: rest)).drop 8 = serialize m ++ senderDrain rest := by
      rw [hstream]
      exact drop_at_len _ _ _ (encodeNat_length 8 _).symm
    have hsize : decodeNat ((senderDrain (m :: rest)).take 8) = (serialize m).length := by
      rw [htake]
      exact decodeNat_encodeNat_of_lt 8 _ (by rw [serialize_length]; exact hlen)
    have hlen8 : ¬((senderDrain (m :: rest)).length < 8) := by
      rw [hstream]
      simp [encodeNat_length]
    have hbody : ((senderDrain (m :: rest)).drop 8).take (decodeNat ((senderDrain (m :: rest)).take 8))
        = serialize m := by
      rw [hdrop, hsize]
      exact take_at_len _ _ _ rfl
    have hfit : ¬(((senderDrain (m :: rest)).drop 8).length
        < decodeNat ((senderDrain (m :: rest)).take 8)) := by
      rw [hdrop, hsize]
      simp
    have hnext : (senderDrain (m :: rest)).drop (8 + decodeNat ((senderDrain (m :: rest)).take 8))
        = senderDrain rest := by
      rw [hsize]
      have : senderDrain (m :: rest)
          = (encodeNat 8 (serialize m).length ++ serialize m) ++ senderDrain rest := by
        simp [senderDrain, frameBytes]
      rw [this]
      exact drop_at_len _ _ _ (by simp [encodeNat_length])
    simp only [receiverParseFuel, if_neg hlen8, if_neg hfit, hbody, parse_serialize m ht,
               hnext]
    rw [ih (fun x hx => h x (by simp [hx])) f (by simpa using hf)]
    simp

/-- C9: a queue of messages A, B, C drained by the sending I/O loop
produces a byte stream from which the receiving I/O loop reconstructs
exactly A, B, C in that order (with fresh read cursors), and `update`
on the receiving side then dispatches them in that same order. -/
theorem C9_fifo_order (msgs : List Message)
    (h : ∀ m ∈ msgs, m.msgType < 256 ^ 4 ∧ 4 + m.buffer.length < 256 ^ 8) :
    receiverParse (senderDrain msgs)
      = msgs.map (fun m => { msgType := m.msgType, buffer := m.buffer, readPos := 0 }) ∧
    (∀ s : ClientState, s.isConnected = true →
      (clientUpdate { s with receivedMessages := receiverParse (senderDrain msgs) }).2.1
        = (msgs.map (fun m => { msgType := m.msgType, buffer := m.buffer, readPos := 0 })).filterMap
            (fun m => ((lookupKey s.actions m.msgType).join).map (fun cb => (cb, m)))) := by
  have h1 : receiverParse (senderDrain msgs)
      = msgs.map (fun m => { msgType := m.msgType, buffer := m.buffer, readPos := 0 }) :=
    receiverParseFuel_drain msgs h _ (senderDrain_length_ge msgs)
  refine ⟨h1, fun s hc => ?_⟩
  simp [clientUpdate, hc, dispatchLoop_eq_filterMap, h1]

/-- Witness for C9 at two concrete messages (the second with a nonzero
cursor, which the wire transfer resets). -/
theorem C9_fifo_order_witness :
    receiverParse (senderDrain [{ msgType := 1, buffer := [5], readPos := 0 },
                                { msgType := 2, buffer := [], readPos := 7 }])
      = [{ msgType := 1, buffer := [5], readPos := 0 },
         { msgType := 2, buffer := [], readPos := 0 }] :=
  ((C9_fifo_order [{ msgType := 1, buffer := [5], readPos := 0 },
                   { msgType := 2, buffer := [], readPos := 7 }] (by decide)).1).trans
    (by decide)
